import Mathlib

/-!
# Verification of the M365 license report generator

A shallow embedding of `m365_license_report.py`: the MSAL token acquisition
(`get_access_token`), the Graph pagination loop with license flattening
(`fetch_users_with_licenses`), the CSV exporter (`export_to_csv`), and the
top-level `main` pipeline. JSON objects are modelled with `Option` fields for
keys that may be absent (Python `dict.get` returning `None`); Python
exceptions are modelled with `Except`; the HTTP transport is modelled by the
finite list of responses the server delivers, in delivery order; the file
system is a map from path to file content.
-/

namespace M365

/-- One element of a user's `assignedLicenses` array. The source reads only
the `skuId` key, with a raising lookup `lic["skuId"]`, so the key is modelled
as optional (absent = `none`). -/
structure LicEntry where
  skuId : Option String
  deriving DecidableEq, Repr

/-- A user object from a page's `value` array. Each field the source touches
via `user.get(...)` is optional: an absent key is `none` (Python `None`). -/
structure GraphUser where
  displayName : Option String
  userPrincipalName : Option String
  accountEnabled : Option Bool
  assignedLicenses : Option (List LicEntry)
  deriving DecidableEq, Repr

/-- The JSON body of one collection page: the `value` array (the source
defaults an absent key to `[]`, so absent is identified with the empty list)
and the optional `@odata.nextLink` continuation cursor. -/
structure Page where
  value : List GraphUser
  nextLink : Option String
  deriving DecidableEq, Repr

/-- An HTTP response: status code, raw body text (`response.text`), and the
parsed JSON body (`response.json()`). -/
structure HttpResponse where
  status : Nat
  text : String
  json : Page
  deriving DecidableEq, Repr

/-- The per-user dict the fetcher appends to its result list. The first three
values are copied from the (optional) user fields; `AssignedLicenses` is the
flattened license string. -/
structure UserRecord where
  userPrincipalName : Option String
  displayName : Option String
  accountEnabled : Option Bool
  assignedLicenses : String
  deriving DecidableEq, Repr

/-- Errors raised inside the fetch loop: `Exception(f"Graph API error: ...")`
for a non-200 status, and Python's `KeyError(key)` from `lic["skuId"]`. -/
inductive FetchError where
  | apiError (message : String)
  | keyError (key : String)
  deriving DecidableEq, Repr

def GRAPH_API_ENDPOINT : String := "https://graph.microsoft.com/v1.0"

/-- The fixed starting URL of the fetch loop (line 41 of the source). -/
def usersUrl : String :=
  GRAPH_API_ENDPOINT ++ "/users?$select=id,displayName,userPrincipalName,assignedLicenses,accountEnabled"

/-- `[lic["skuId"] for lic in user.get("assignedLicenses", [])]`: left-to-right
extraction, raising `KeyError("skuId")` at the first entry lacking the key. -/
def extractSkus : List LicEntry → Except FetchError (List String)
  | [] => .ok []
  | e :: rest =>
    match e.skuId with
    | none => .error (.keyError "skuId")
    | some s =>
      match extractSkus rest with
      | .error err => .error err
      | .ok more => .ok (s :: more)

/-- Build one record from a user object (lines 51-58 of the source):
extract the skuIds, then `", ".join(license_skus) if license_skus else "None"`
together with the verbatim copies of the three `user.get` fields. -/
def buildRecord (u : GraphUser) : Except FetchError UserRecord :=
  match extractSkus (u.assignedLicenses.getD []) with
  | .error err => .error err
  | .ok skus =>
    .ok { userPrincipalName := u.userPrincipalName
          displayName := u.displayName
          accountEnabled := u.accountEnabled
          assignedLicenses := if skus.isEmpty then "None" else String.intercalate ", " skus }

/-- The `for user in data.get("value", [])` loop over one page: builds and
appends a record per user, propagating the first error. -/
def processUsers : List GraphUser → Except FetchError (List UserRecord)
  | [] => .ok []
  | u :: rest =>
    match buildRecord u with
    | .error err => .error err
    | .ok r =>
      match processUsers rest with
      | .error err => .error err
      | .ok more => .ok (r :: more)

/-- `url = data.get("@odata.nextLink", None)` followed by `while url:`:
the loop continues exactly when the cursor is present and truthy (a present
empty string is falsy in Python and terminates the loop like absence). -/
def continueUrl : Option String → Option String
  | none => none
  | some u => if u = "" then none else some u

/-- The `while url:` loop (lines 45-60): the transport is modelled by the
list of responses the server delivers in order. Returns the fetch outcome
together with the list of URLs requested, in request order. The `[]` case is
the model's boundary (a request with no delivered response) and is never
reached when the response list covers the page chain. -/
def fetchLoop : List HttpResponse → String → Except FetchError (List UserRecord) × List String
  | [], _ => (.ok [], [])
  | r :: rest, url =>
    if r.status ≠ 200 then
      (.error (.apiError ("Graph API error: " ++ r.text)), [url])
    else
      match processUsers r.json.value with
      | .error err => (.error err, [url])
      | .ok recs =>
        match continueUrl r.json.nextLink with
        | none => (.ok recs, [url])
        | some u =>
          let p := fetchLoop rest u
          (Except.map (fun more => recs ++ more) p.1, url :: p.2)

/-- `fetch_users_with_licenses(token)` (lines 38-62): starts the loop at the
fixed users URL with the bearer header built from the token. -/
def fetch_users_with_licenses (token : String) (responses : List HttpResponse) :
    Except FetchError (List UserRecord) × List String :=
  let _headers := "Bearer " ++ token
  fetchLoop responses usersUrl

/-- Python dict lookup on the MSAL token result, modelled as an association
list: `"access_token" in token_result` / `token_result["access_token"]`. -/
def dictLookup : List (String × String) → String → Option String
  | [], _ => none
  | kv :: rest, k => if kv.1 = k then some kv.2 else dictLookup rest k

/-- Rendering of the raw token-result dict, as interpolated into the error
message by `f"Failed to acquire token: \x7btoken_result\x7d"`. -/
def pyRepr (d : List (String × String)) : String :=
  "\x7b" ++ String.intercalate ", " (d.map (fun kv => kv.1 ++ ": " ++ kv.2)) ++ "\x7d"

/-- `get_access_token` (lines 24-35): returns the `access_token` value when
present, otherwise raises carrying the provider's raw response. -/
def get_access_token (tokenResult : List (String × String)) : Except String String :=
  match dictLookup tokenResult "access_token" with
  | some tok => .ok tok
  | none => .error ("Failed to acquire token: " ++ pyRepr tokenResult)

/-! ## The CSV exporter

`export_to_csv` uses `csv.DictWriter` with the default (excel) dialect:
delimiter `,`, quote character `"`, QUOTE_MINIMAL (a field is quoted exactly
when it contains the delimiter, the quote character, or a line-terminator
character, with embedded quote characters doubled), line terminator CRLF
(preserved by `newline=""`). `csv.writer` converts a `None` value to the
empty string and a bool to `str(True)`/`str(False)`. The writer is modelled
at character level; the produced `String` is the content of the output file
(whose bytes are its UTF-8 encoding). -/

/-- A character forcing QUOTE_MINIMAL to quote the field: the delimiter, the
quote char, or a character of the CRLF line terminator. -/
def specialChar (c : Char) : Bool :=
  c = ',' || c = '"' || c = '\r' || c = '\n'

def needsQuoting (cs : List Char) : Bool :=
  cs.any specialChar

/-- Double every embedded quote character. -/
def escapeQuotes : List Char → List Char
  | [] => []
  | c :: rest => if c = '"' then '"' :: '"' :: escapeQuotes rest else c :: escapeQuotes rest

/-- QUOTE_MINIMAL rendering of one field. -/
def quoteField (cs : List Char) : List Char :=
  if needsQuoting cs then '"' :: (escapeQuotes cs ++ ['"']) else cs

/-- Join the quoted fields of a row with the `,` delimiter. -/
def renderCells : List (List Char) → List Char
  | [] => []
  | [c] => quoteField c
  | c :: c2 :: cs => quoteField c ++ ',' :: renderCells (c2 :: cs)

/-- One CSV row: delimiter-joined quoted fields plus the CRLF terminator. -/
def renderRow (cells : List (List Char)) : List Char :=
  renderCells cells ++ ['\r', '\n']

def renderRows (rows : List (List (List Char))) : List Char :=
  (rows.map renderRow).flatten

/-- `csv.writer`'s conversion of a cell value: `None` becomes the empty
string, a string is written as-is. -/
def cellOfStr : Option String → String
  | none => ""
  | some s => s

/-- `csv.writer`'s conversion of the `accountEnabled` value: `None` becomes
the empty string, a bool its `str()` form. -/
def cellOfBool : Option Bool → String
  | none => ""
  | some true => "True"
  | some false => "False"

/-- The four column values of one record, in the `fieldnames` order of
line 67 of the source. -/
def recordCells (r : UserRecord) : List String :=
  [cellOfStr r.userPrincipalName, cellOfStr r.displayName,
   cellOfBool r.accountEnabled, r.assignedLicenses]

/-- The header cells: `fieldnames`, written by `writer.writeheader()`. -/
def headerCells : List String :=
  ["UserPrincipalName", "DisplayName", "AccountEnabled", "AssignedLicenses"]

def rowOfRecord (r : UserRecord) : List (List Char) :=
  (recordCells r).map String.data

def headerRow : List (List Char) :=
  headerCells.map String.data

/-- `export_to_csv(users, output_file)` (lines 65-71): the content written to
the output file — the header row followed by one row per record, in order. -/
def export_to_csv (users : List UserRecord) : String :=
  String.mk (renderRows (headerRow :: users.map rowOfRecord))

/-- The file system as a map from path to file content; `open(path, "w")`
replaces the content at `path` unconditionally. -/
def writeFile (fs : String → Option String) (path content : String) :
    String → Option String :=
  fun p => if p = path then some content else fs p

/-! ## The `main` pipeline -/

/-- The unrecoverable failures `main` propagates to the process boundary. -/
inductive ProgError where
  | authError (message : String)
  | fetchError (e : FetchError)
  deriving DecidableEq, Repr

/-- Outcome of one run of `main`: the process outcome, the resulting file
system, and how many fetch (GET) calls were issued. -/
structure RunResult where
  outcome : Except ProgError Unit
  fs : String → Option String
  fetchCalls : Nat

/-- `main` (lines 74-92) on a given environment: token-endpoint response,
the collection responses the server would deliver in order, the initial file
system, and the `--output` path. Authenticate, then fetch all pages, then
export; any raised error propagates and nothing is written. -/
def main (tokenResult : List (String × String)) (responses : List HttpResponse)
    (fs : String → Option String) (outputPath : String) : RunResult :=
  match get_access_token tokenResult with
  | .error m => { outcome := .error (.authError m), fs := fs, fetchCalls := 0 }
  | .ok token =>
    let p := fetch_users_with_licenses token responses
    match p.1 with
    | .error e => { outcome := .error (.fetchError e), fs := fs, fetchCalls := p.2.length }
    | .ok users =>
      { outcome := .ok ()
        fs := writeFile fs outputPath (export_to_csv users)
        fetchCalls := p.2.length }

/-! ## A standard CSV reader

An RFC-4180 / `csv.reader`-style parser over the characters of a file, used
to state the round-trip property of the exporter: fields separated by `,`,
rows terminated by CRLF, a field starting with `"` read as a quoted field
with doubled `"` as an escaped quote. -/

/-- Read the remainder of a quoted field (the opening quote already
consumed): a doubled quote is an escaped quote character, a lone closing
quote ends the field. -/
def parseQuotedTail : List Char → List Char × List Char
  | [] => ([], [])
  | c :: rest =>
    if c = '"' then
      match rest with
      | [] => ([], [])
      | c2 :: rest2 =>
        if c2 = '"' then
          let p := parseQuotedTail rest2
          ('"' :: p.1, p.2)
        else ([], c2 :: rest2)
    else
      let p := parseQuotedTail rest
      (c :: p.1, p.2)

/-- A character ending an unquoted field: the delimiter or a row break. -/
def fieldEnd (c : Char) : Bool :=
  c = ',' || c = '\r' || c = '\n'

/-- Read an unquoted field up to the next delimiter or row break. -/
def parseUnquoted : List Char → List Char × List Char
  | [] => ([], [])
  | c :: rest =>
    if fieldEnd c then ([], c :: rest)
    else
      let p := parseUnquoted rest
      (c :: p.1, p.2)

/-- Read one field, quoted or unquoted. -/
def parseFieldCsv (cs : List Char) : List Char × List Char :=
  match cs with
  | [] => ([], [])
  | c :: rest => if c = '"' then parseQuotedTail rest else parseUnquoted (c :: rest)

/-- Read the fields of one row; the fuel bounds the number of fields. -/
def parseRowAux : Nat → List Char → List (List Char) × List Char
  | 0, cs => ([], cs)
  | n + 1, cs =>
    let f := parseFieldCsv cs
    match f.2 with
    | ',' :: rest2 =>
      let p := parseRowAux n rest2
      (f.1 :: p.1, p.2)
    | '\r' :: '\n' :: rest2 => ([f.1], rest2)
    | rest2 => ([f.1], rest2)

/-- Read one CSV row (a row has at most one field per character plus one). -/
def parseRowCsv (cs : List Char) : List (List Char) × List Char :=
  parseRowAux (cs.length + 1) cs

/-- Read all rows; the fuel bounds the number of rows. -/
def parseRowsAux : Nat → List Char → List (List (List Char))
  | 0, _ => []
  | n + 1, cs =>
    if cs.isEmpty then []
    else
      let p := parseRowCsv cs
      p.1 :: parseRowsAux n p.2

/-- Parse a CSV file into its rows of string fields. -/
def parseCsv (s : String) : List (List String) :=
  (parseRowsAux (s.data.length + 1) s.data).map (fun row => row.map String.mk)

/-! ## Helper notions for the statements and proofs -/

/-- Every entry of the user's license array carries the `skuId` key (so the
raising lookup cannot fire). -/
def licensesOk (u : GraphUser) : Prop :=
  ∀ l ∈ u.assignedLicenses.getD [], (LicEntry.skuId l).isSome

/-- The skuIds of a user whose license entries all carry the key. -/
def skusOf (u : GraphUser) : List String :=
  (u.assignedLicenses.getD []).filterMap LicEntry.skuId

/-- The record `buildRecord` produces on a user with well-formed licenses. -/
def builtRecord (u : GraphUser) : UserRecord :=
  { userPrincipalName := u.userPrincipalName
    displayName := u.displayName
    accountEnabled := u.accountEnabled
    assignedLicenses :=
      if (skusOf u).isEmpty then "None" else String.intercalate ", " (skusOf u) }

/-- Every user of the page has well-formed licenses and the status is 200. -/
def pageOk (r : HttpResponse) : Prop :=
  r.status = 200 ∧ ∀ u ∈ r.json.value, licensesOk u

/-- The response list is a complete page chain: every page except the last
carries a truthy continuation cursor, the last does not. -/
def isChain : List HttpResponse → Prop
  | [] => True
  | [r] => continueUrl r.json.nextLink = none
  | r :: r2 :: rest => (continueUrl r.json.nextLink).isSome ∧ isChain (r2 :: rest)

/-- The URLs the loop requests along a chain: the start URL, then each
page's continuation cursor. -/
def chainUrls : List HttpResponse → String → List String
  | [], _ => []
  | [_], url => [url]
  | r :: r2 :: rest, url =>
    url :: chainUrls (r2 :: rest) ((continueUrl r.json.nextLink).getD "")

/-! ## Concrete sample data for witnesses and counterexamples -/

def licA : LicEntry := { skuId := some "sku-aaaa" }

def licB : LicEntry := { skuId := some "sku-bbbb" }

def userAlice : GraphUser :=
  { displayName := some "Alice"
    userPrincipalName := some "alice@contoso.com"
    accountEnabled := some true
    assignedLicenses := some [licA] }

def userBob : GraphUser :=
  { displayName := some "Doe, Jane"
    userPrincipalName := some "jdoe@contoso.com"
    accountEnabled := some false
    assignedLicenses := some [] }

/-- A user carrying every optional top-level field absent. -/
def userBare : GraphUser :=
  { displayName := none
    userPrincipalName := none
    accountEnabled := none
    assignedLicenses := none }

/-- A user with a license entry lacking the `skuId` key. -/
def userBadLic : GraphUser :=
  { displayName := some "Mallory"
    userPrincipalName := some "mallory@contoso.com"
    accountEnabled := some true
    assignedLicenses := some [{ skuId := none }] }

/-- A user whose single skuId is the empty string: the joined license string
is empty although the license list is not. -/
def userEmptySku : GraphUser :=
  { displayName := some "Eve"
    userPrincipalName := some "eve@contoso.com"
    accountEnabled := some true
    assignedLicenses := some [{ skuId := some "" }] }

def pageOne : HttpResponse :=
  { status := 200
    text := "page1"
    json := { value := [userAlice], nextLink := some (GRAPH_API_ENDPOINT ++ "/users?page=2") } }

def pageTwo : HttpResponse :=
  { status := 200
    text := "page2"
    json := { value := [userBob, userBare], nextLink := none } }

def pageBadLic : HttpResponse :=
  { status := 200
    text := "bad"
    json := { value := [userBadLic], nextLink := none } }

def resp403 : HttpResponse :=
  { status := 403
    text := "Authorization_RequestDenied"
    json := { value := [], nextLink := none } }

/-- A success status other than 200 (HTTP 204 No Content). -/
def resp204 : HttpResponse :=
  { status := 204
    text := "no content"
    json := { value := [], nextLink := none } }

/-- A token response lacking `access_token`. -/
def tokenBad : List (String × String) :=
  [("error", "invalid_client"), ("error_description", "secret expired")]

def tokenGood : List (String × String) :=
  [("token_type", "Bearer"), ("access_token", "tok123")]

def emptyFs : String → Option String := fun _ => none

instance decLicensesOk (u : GraphUser) : Decidable (licensesOk u) :=
  inferInstanceAs (Decidable (∀ l ∈ u.assignedLicenses.getD [], (LicEntry.skuId l).isSome))

instance decPageOk (r : HttpResponse) : Decidable (pageOk r) :=
  inferInstanceAs (Decidable (r.status = 200 ∧ ∀ u ∈ r.json.value, licensesOk u))

instance decIsChain : (responses : List HttpResponse) → Decidable (isChain responses)
  | [] => inferInstanceAs (Decidable True)
  | [r] => inferInstanceAs (Decidable (continueUrl r.json.nextLink = none))
  | _ :: r2 :: rest =>
    have : Decidable (isChain (r2 :: rest)) := decIsChain (r2 :: rest)
    inferInstanceAs (Decidable (_ ∧ _))

/-! ## Helper lemmas -/

theorem extractSkus_ok (ls : List LicEntry) (h : ∀ l ∈ ls, (LicEntry.skuId l).isSome) :
    extractSkus ls = .ok (ls.filterMap LicEntry.skuId) := by
  induction ls with
  | nil => rfl
  | cons e rest ih =>
    obtain ⟨s, hs⟩ := Option.isSome_iff_exists.mp (h e (List.mem_cons_self e rest))
    have hrest := ih (fun l hl => h l (List.mem_cons_of_mem e hl))
    simp [extractSkus, hs, hrest, List.filterMap_cons]

theorem buildRecord_ok (u : GraphUser) (h : licensesOk u) :
    buildRecord u = .ok (builtRecord u) := by
  simp [buildRecord, extractSkus_ok _ h, builtRecord, skusOf]

theorem processUsers_ok (vs : List GraphUser) (h : ∀ u ∈ vs, licensesOk u) :
    processUsers vs = .ok (vs.map builtRecord) := by
  induction vs with
  | nil => rfl
  | cons u rest ih =>
    have hu := buildRecord_ok u (h u (List.mem_cons_self u rest))
    have hrest := ih (fun v hv => h v (List.mem_cons_of_mem u hv))
    simp [processUsers, hu, hrest]

/-- `extractSkus` (and hence the per-page processing) can only fail with a
`KeyError`, never with an `ApiError`. -/
theorem extractSkus_no_apiError (ls : List LicEntry) (m : String) :
    extractSkus ls ≠ .error (.apiError m) := by
  induction ls with
  | nil => simp [extractSkus]
  | cons e rest ih =>
    simp only [extractSkus]
    cases e.skuId with
    | none => simp
    | some s =>
      cases hr : extractSkus rest with
      | error err => simp [hr] at ih ⊢; intro hc; exact ih (by rw [hc])
      | ok more => simp

theorem processUsers_no_apiError (vs : List GraphUser) (m : String) :
    processUsers vs ≠ .error (.apiError m) := by
  induction vs with
  | nil => simp [processUsers]
  | cons u rest ih =>
    simp only [processUsers, buildRecord]
    cases he : extractSkus (u.assignedLicenses.getD []) with
    | error err =>
      have := extractSkus_no_apiError (u.assignedLicenses.getD []) m
      rw [he] at this
      simp only []
      intro hc
      exact this (by injection hc with h1; rw [h1])
    | ok skus =>
      cases hp : processUsers rest with
      | error err =>
        rw [hp] at ih
        simp only []
        intro hc
        exact ih (by injection hc with h1; rw [h1])
      | ok more => simp

/-- One unfolding step of the fetch loop on a nonempty response list. -/
theorem fetchLoop_step (r : HttpResponse) (rest : List HttpResponse) (url : String) :
    fetchLoop (r :: rest) url =
      if r.status ≠ 200 then
        (.error (.apiError ("Graph API error: " ++ r.text)), [url])
      else
        match processUsers r.json.value with
        | .error err => (.error err, [url])
        | .ok recs =>
          match continueUrl r.json.nextLink with
          | none => (.ok recs, [url])
          | some u =>
            let p := fetchLoop rest u
            (Except.map (fun more => recs ++ more) p.1, url :: p.2) := rfl

/-- The fetch loop along a complete, well-formed chain: it succeeds with the
concatenation of the pages' records, requests exactly the chain's URLs, and
never touches responses beyond the page lacking a cursor. -/
theorem fetchLoop_chain (responses : List HttpResponse) :
    ∀ (extra : List HttpResponse) (url : String),
      responses ≠ [] →
      (∀ r ∈ responses, pageOk r) →
      isChain responses →
      fetchLoop (responses ++ extra) url =
        (.ok ((responses.map (fun r => r.json.value.map builtRecord)).flatten),
         chainUrls responses url) := by
  induction responses with
  | nil => intro _ _ hne _ _; exact absurd rfl hne
  | cons r rest ih =>
    intro extra url _ hok hchain
    have hr : pageOk r := hok r (List.mem_cons_self r rest)
    have hproc := processUsers_ok r.json.value hr.2
    cases rest with
    | nil =>
      have hlast : continueUrl r.json.nextLink = none := hchain
      rw [List.cons_append, List.nil_append, fetchLoop_step]
      simp [hr.1, hproc, hlast, chainUrls]
    | cons r2 rest2 =>
      obtain ⟨hcur, hchain2⟩ := hchain
      obtain ⟨u, hu⟩ := Option.isSome_iff_exists.mp hcur
      have ihr := ih extra u (by simp)
        (fun x hx => hok x (List.mem_cons_of_mem r hx)) hchain2
      rw [List.cons_append, fetchLoop_step]
      simp only [hr.1, hproc, hu, ne_eq, not_true_eq_false, if_false, ite_false]
      rw [ihr]
      simp [chainUrls, hu, Except.map]

/-- A chain of N pages induces exactly N requested URLs. -/
theorem chainUrls_length (responses : List HttpResponse) :
    ∀ url : String, (chainUrls responses url).length = responses.length := by
  induction responses with
  | nil => intro url; rfl
  | cons r rest ih =>
    intro url
    cases rest with
    | nil => rfl
    | cons r2 rest2 => simp [chainUrls, ih]

/-! ## Round-trip of the CSV writer and reader -/

theorem mk_data (s : String) : String.mk s.data = s := rfl

theorem map_mk_data (l : List String) : (l.map String.data).map String.mk = l := by
  induction l with
  | nil => rfl
  | cons s rest ih => simp [ih, mk_data]

theorem parseQuotedTail_quote_quote (rest : List Char) :
    parseQuotedTail ('"' :: '"' :: rest) =
      ('"' :: (parseQuotedTail rest).1, (parseQuotedTail rest).2) := rfl

theorem parseQuotedTail_quote_other (c : Char) (rest : List Char) (h : c ≠ '"') :
    parseQuotedTail ('"' :: c :: rest) = ([], c :: rest) := by
  conv_lhs => unfold parseQuotedTail
  simp [h]

theorem parseQuotedTail_other (c : Char) (rest : List Char) (h : c ≠ '"') :
    parseQuotedTail (c :: rest) =
      (c :: (parseQuotedTail rest).1, (parseQuotedTail rest).2) := by
  conv_lhs => unfold parseQuotedTail
  simp [h]

/-- Lemma A: the quoted-field reader undoes the quote-doubling escape, up to
the closing quote, whenever what follows the closing quote is not another
quote character. -/
theorem parseQuotedTail_escape (f : List Char) :
    ∀ rest : List Char, (∀ c, rest.head? = some c → c ≠ '"') →
      parseQuotedTail (escapeQuotes f ++ '"' :: rest) = (f, rest) := by
  induction f with
  | nil =>
    intro rest hrest
    cases rest with
    | nil => rfl
    | cons c cs =>
      have hc : c ≠ '"' := hrest c rfl
      show parseQuotedTail ('"' :: c :: cs) = ([], c :: cs)
      exact parseQuotedTail_quote_other c cs hc
  | cons a f ih =>
    intro rest hrest
    by_cases ha : a = '"'
    · subst ha
      show parseQuotedTail ('"' :: '"' :: (escapeQuotes f ++ '"' :: rest)) = ('"' :: f, rest)
      rw [parseQuotedTail_quote_quote, ih rest hrest]
    · have hesc : escapeQuotes (a :: f) = a :: escapeQuotes f := by
        simp [escapeQuotes, ha]
      rw [hesc, List.cons_append, parseQuotedTail_other a _ ha, ih rest hrest]

/-- Lemma B: the unquoted-field reader consumes exactly the field characters
(none of which ends a field) and stops at the delimiter or row break. -/
theorem parseUnquoted_plain (f : List Char) :
    ∀ rest : List Char, (∀ c ∈ f, fieldEnd c = false) →
      (∀ c, rest.head? = some c → fieldEnd c = true) →
      parseUnquoted (f ++ rest) = (f, rest) := by
  induction f with
  | nil =>
    intro rest _ hrest
    cases rest with
    | nil => rfl
    | cons c cs => simp [parseUnquoted, hrest c rfl]
  | cons a f ih =>
    intro rest hf hrest
    have ha : fieldEnd a = false := hf a (List.mem_cons_self a f)
    simp only [List.cons_append, parseUnquoted, ha, Bool.false_eq_true, if_false, ite_false]
    simp [ih rest (fun c hc => hf c (List.mem_cons_of_mem a hc)) hrest]

/-- Lemma C: reading one field inverts QUOTE_MINIMAL quoting whenever the
field is followed by the delimiter or a row break. -/
theorem parseFieldCsv_quoteField (f : List Char) (rest : List Char)
    (hrest : ∀ c, rest.head? = some c → (c = ',' ∨ c = '\r')) :
    parseFieldCsv (quoteField f ++ rest) = (f, rest) := by
  have hnq : ∀ c, rest.head? = some c → c ≠ '"' := by
    intro c hc
    rcases hrest c hc with h | h <;> subst h <;> decide
  by_cases hq : needsQuoting f
  · rw [quoteField, if_pos hq]
    rw [List.cons_append, List.append_assoc, List.singleton_append]
    simp only [parseFieldCsv, if_pos rfl]
    exact parseQuotedTail_escape f rest hnq
  · have hplain : ∀ c ∈ f, specialChar c = false := by
      intro c hc
      have := hq
      rw [needsQuoting, List.any_eq_true] at this
      by_contra hcs
      exact this ⟨c, hc, by simpa using hcs⟩
    rw [quoteField, if_neg hq]
    cases f with
    | nil =>
      cases rest with
      | nil => rfl
      | cons c cs =>
        have hcne : c ≠ '"' := hnq c rfl
        have hce : fieldEnd c = true := by
          rcases hrest c rfl with h | h <;> subst h <;> rfl
        simp [parseFieldCsv, hcne, parseUnquoted, hce]
    | cons a f2 =>
      have hsa : specialChar a = false := hplain a (List.mem_cons_self a f2)
      have hane : a ≠ '"' := by
        intro h; subst h; simp [specialChar] at hsa
      have hfe : ∀ c ∈ a :: f2, fieldEnd c = false := by
        intro c hc
        have hsp := hplain c hc
        simp only [specialChar, Bool.or_eq_false_iff, decide_eq_false_iff_not] at hsp
        obtain ⟨⟨⟨h1, _⟩, h3⟩, h4⟩ := hsp
        simp [fieldEnd, h1, h3, h4]
      have hre : ∀ c, rest.head? = some c → fieldEnd c = true := by
        intro c hc
        rcases hrest c hc with h | h <;> subst h <;> rfl
      simp only [List.cons_append, parseFieldCsv, hane, if_false, ite_false]
      exact parseUnquoted_plain (a :: f2) rest hfe hre

/-- A row has at most one field per rendered character, plus one. -/
theorem length_le_renderCells (cells : List (List Char)) :
    cells.length ≤ (renderCells cells).length + 1 := by
  induction cells with
  | nil => simp
  | cons c cs ih =>
    cases cs with
    | nil => simp [renderCells]
    | cons c2 cs2 =>
      simp only [renderCells, List.length_cons, List.length_append] at ih ⊢
      omega

/-- Lemma D: reading one row inverts the row writer, leaving exactly the
input past the CRLF, provided the fuel covers the number of cells. -/
theorem parseRowAux_render (cells : List (List Char)) :
    ∀ (n : Nat) (rest : List Char), cells ≠ [] → cells.length ≤ n →
      parseRowAux n (renderCells cells ++ '\r' :: '\n' :: rest) = (cells, rest) := by
  induction cells with
  | nil => intro n rest hne _; exact absurd rfl hne
  | cons c cs ih =>
    intro n rest _ hlen
    cases n with
    | zero => simp at hlen
    | succ m =>
      cases cs with
      | nil =>
        have hfield := parseFieldCsv_quoteField c ('\r' :: '\n' :: rest)
          (fun x hx => by
            rw [List.head?_cons] at hx
            exact Or.inr (Option.some.inj hx).symm)
        simp only [renderCells, parseRowAux, hfield]
      | cons c2 cs2 =>
        have hfield := parseFieldCsv_quoteField c
          (',' :: (renderCells (c2 :: cs2) ++ '\r' :: '\n' :: rest))
          (fun x hx => by
            rw [List.head?_cons] at hx
            exact Or.inl (Option.some.inj hx).symm)
        have hrec := ih m rest (by simp) (by simp at hlen ⊢; omega)
        simp only [renderCells, List.append_assoc, List.cons_append] at hfield ⊢
        simp only [parseRowAux, hfield, hrec]

/-- The row reader with its own length fuel inverts the row writer. -/
theorem parseRowCsv_render (cells : List (List Char)) (rest : List Char)
    (hne : cells ≠ []) :
    parseRowCsv (renderCells cells ++ '\r' :: '\n' :: rest) = (cells, rest) := by
  apply parseRowAux_render cells _ rest hne
  have h1 := length_le_renderCells cells
  simp [List.length_append]
  omega

/-- Each rendered row contributes at least its CRLF, so there are at least as
many characters as rows. -/
theorem length_le_renderRows (rows : List (List (List Char))) :
    rows.length ≤ (renderRows rows).length := by
  induction rows with
  | nil => simp [renderRows]
  | cons row rest ih =>
    simp only [renderRows, List.map_cons, List.flatten_cons, List.length_cons,
      List.length_append, renderRow] at ih ⊢
    omega

/-- Lemma E: reading all rows inverts the writer, provided the fuel covers
the number of rows and no row is empty. -/
theorem parseRowsAux_render (rows : List (List (List Char))) :
    ∀ n : Nat, rows.length ≤ n → (∀ row ∈ rows, row ≠ []) →
      parseRowsAux n (renderRows rows) = rows := by
  induction rows with
  | nil =>
    intro n _ _
    cases n with
    | zero => rfl
    | succ m => simp [renderRows, parseRowsAux]
  | cons row rest ih =>
    intro n hlen hne
    cases n with
    | zero => simp at hlen
    | succ m =>
      have hrow : renderRows (row :: rest) = renderCells row ++ '\r' :: '\n' :: renderRows rest := by
        simp [renderRows, renderRow, List.append_assoc]
      have hnonempty : (renderRows (row :: rest)).isEmpty = false := by
        rw [hrow]
        cases hc : renderCells row with
        | nil => simp [hc]
        | cons x xs => simp [hc]
      have hparse : parseRowCsv (renderRows (row :: rest)) = (row, renderRows rest) := by
        rw [hrow]
        exact parseRowCsv_render row (renderRows rest) (hne row (List.mem_cons_self row rest))
      have hrec := ih m (by simpa using hlen) (fun r hr => hne r (List.mem_cons_of_mem row hr))
      simp only [parseRowsAux, hnonempty, Bool.false_eq_true, if_false, ite_false, hparse, hrec]

/-! ## The claims -/

/-- Claim C1: over a finite chain of pages the fetcher returns exactly the
concatenation of the pages' records, in server delivery order, with no
deduplication, and the result's length is the sum of the `value` array
lengths across the pages. -/
theorem claim_C1 (token : String) (responses : List HttpResponse)
    (hne : responses ≠ [])
    (hok : ∀ r ∈ responses, pageOk r)
    (hchain : isChain responses) :
    (fetch_users_with_licenses token responses).1 =
      .ok ((responses.map (fun r => r.json.value.map builtRecord)).flatten) ∧
    ((responses.map (fun r => r.json.value.map builtRecord)).flatten).length =
      (responses.map (fun r => r.json.value.length)).sum := by
  have h := fetchLoop_chain responses [] usersUrl hne hok hchain
  rw [List.append_nil] at h
  constructor
  · show (fetchLoop responses usersUrl).1 = _
    rw [h]
  · simp [List.length_flatten, List.map_map, Function.comp_def]

/-- Witness for C1: a concrete two-page chain, one user on the first page and
two on the second, yields the three records in delivery order. -/
theorem claim_C1_witness :
    (fetch_users_with_licenses "tok" [pageOne, pageTwo]).1 =
      .ok (([pageOne, pageTwo].map (fun r => r.json.value.map builtRecord)).flatten) ∧
    (([pageOne, pageTwo].map (fun r => r.json.value.map builtRecord)).flatten).length =
      ([pageOne, pageTwo].map (fun r => r.json.value.length)).sum :=
  claim_C1 "tok" [pageOne, pageTwo] (by simp) (by decide) (by decide)

/-- Claim C2 counterexample: for the user whose single license entry has
`skuId = ""`, the joined result is the empty string, yet the builder emits
`""`, not `"None"` — so "None" is not substituted exactly when the joined
result is empty. -/
theorem claim_C2_counterexample :
    skusOf userEmptySku = [""] ∧
    String.intercalate ", " (skusOf userEmptySku) = "" ∧
    buildRecord userEmptySku = .ok (builtRecord userEmptySku) ∧
    (builtRecord userEmptySku).assignedLicenses = "" ∧
    (builtRecord userEmptySku).assignedLicenses ≠ "None" :=
  ⟨rfl, rfl, rfl, rfl, by decide⟩

/-- Claim C2 (amended): the fetcher builds AssignedLicenses by extracting
`skuId` from each entry (absent `assignedLicenses` treated as empty), joining
with ", ", and substituting "None" exactly when the extracted sku list is
empty; an empty license array yields "None" and entries A, B yield "A, B". -/
theorem claim_C2_amended :
    (∀ (u : GraphUser) (skus : List String),
      extractSkus (u.assignedLicenses.getD []) = .ok skus →
      buildRecord u =
        .ok { userPrincipalName := u.userPrincipalName
              displayName := u.displayName
              accountEnabled := u.accountEnabled
              assignedLicenses :=
                if skus.isEmpty then "None" else String.intercalate ", " skus }) ∧
    (∃ r, buildRecord userBob = .ok r ∧ r.assignedLicenses = "None") ∧
    (∃ r, buildRecord
        { userBare with assignedLicenses := some [{ skuId := some "A" }, { skuId := some "B" }] } =
          .ok r ∧ r.assignedLicenses = "A, B") := by
  refine ⟨?_, ⟨builtRecord userBob, rfl, rfl⟩, ⟨_, rfl, rfl⟩⟩
  intro u skus h
  simp [buildRecord, h]

/-- Witness for C2 (amended): the user with licenses A and B, whose extracted
sku list is ["A", "B"]. -/
theorem claim_C2_witness :
    buildRecord { userBare with assignedLicenses := some [{ skuId := some "A" }, { skuId := some "B" }] } =
      .ok { userPrincipalName := none
            displayName := none
            accountEnabled := none
            assignedLicenses :=
              if (["A", "B"] : List String).isEmpty then "None"
              else String.intercalate ", " ["A", "B"] } :=
  claim_C2_amended.1
    { userBare with assignedLicenses := some [{ skuId := some "A" }, { skuId := some "B" }] }
    ["A", "B"] rfl

/-- Claim C3: along a complete chain whose non-final pages carry well-formed
(truthy) continuation cursors, the loop issues exactly N GET requests and
never touches responses past the page lacking a cursor; and after a 200 page,
the loop terminates when the cursor is absent and continues with a request to
the cursor's URL when it is present and well-formed. -/
theorem claim_C3 :
    (∀ (token : String) (responses extra : List HttpResponse),
      responses ≠ [] → (∀ r ∈ responses, pageOk r) → isChain responses →
      (fetch_users_with_licenses token (responses ++ extra)).2.length = responses.length) ∧
    (∀ (r : HttpResponse) (rest : List HttpResponse) (url : String) (recs : List UserRecord),
      r.status = 200 → processUsers r.json.value = .ok recs →
      (r.json.nextLink = none → fetchLoop (r :: rest) url = (.ok recs, [url])) ∧
      (∀ u, r.json.nextLink = some u → u ≠ "" →
        fetchLoop (r :: rest) url =
          (Except.map (fun more => recs ++ more) (fetchLoop rest u).1,
           url :: (fetchLoop rest u).2))) := by
  constructor
  · intro token responses extra hne hok hchain
    show (fetchLoop (responses ++ extra) usersUrl).2.length = _
    rw [fetchLoop_chain responses extra usersUrl hne hok hchain]
    exact chainUrls_length responses usersUrl
  · intro r rest url recs h200 hproc
    constructor
    · intro hnone
      rw [fetchLoop_step]
      simp [h200, hproc, hnone, continueUrl]
    · intro u hsome hne
      rw [fetchLoop_step]
      simp [h200, hproc, hsome, continueUrl, hne]

/-- Witness for C3: the concrete two-page chain followed by a stray extra
response: exactly 2 requests are issued. -/
theorem claim_C3_witness :
    (fetch_users_with_licenses "tok" ([pageOne, pageTwo] ++ [resp403])).2.length = 2 :=
  claim_C3.1 "tok" [pageOne, pageTwo] [resp403] (by simp) (by decide) (by decide)

/-- Claim C4 counterexample: HTTP 204 is a success (2xx) status, yet the
fetcher fails on it with the ApiError, because the source tests
`status_code != 200`, not "non-2xx". -/
theorem claim_C4_counterexample :
    200 ≤ resp204.status ∧ resp204.status < 300 ∧
    (fetch_users_with_licenses "tok" [resp204]).1 =
      .error (.apiError ("Graph API error: " ++ resp204.text)) :=
  ⟨by decide, by decide, rfl⟩

/-- Claim C4 (amended): the fetcher fails with ApiError if and only if the
response status is not exactly 200 (any other status, 2xx included, raises),
the error carrying the response body verbatim after the "Graph API error: "
prefix; on a 200 status no ApiError is raised. -/
theorem claim_C4_amended :
    (∀ (r : HttpResponse) (rest : List HttpResponse) (url : String),
      r.status ≠ 200 →
      fetchLoop (r :: rest) url =
        (.error (.apiError ("Graph API error: " ++ r.text)), [url])) ∧
    (∀ r : HttpResponse,
      (fetchLoop [r] usersUrl).1 = .error (.apiError ("Graph API error: " ++ r.text)) ↔
        r.status ≠ 200) := by
  have hfail : ∀ (r : HttpResponse) (rest : List HttpResponse) (url : String),
      r.status ≠ 200 →
      fetchLoop (r :: rest) url =
        (.error (.apiError ("Graph API error: " ++ r.text)), [url]) := by
    intro r rest url h
    rw [fetchLoop_step]
    simp [h]
  refine ⟨hfail, fun r => ?_⟩
  constructor
  · intro herr
    by_contra hnn
    have h200 : r.status = 200 := hnn
    rw [fetchLoop_step] at herr
    simp only [h200, ne_eq, not_true_eq_false, if_false, ite_false] at herr
    cases hp : processUsers r.json.value with
    | error err =>
      rw [hp] at herr
      simp only [] at herr
      have := processUsers_no_apiError r.json.value ("Graph API error: " ++ r.text)
      rw [hp] at this
      exact this (by rw [herr])
    | ok recs =>
      rw [hp] at herr
      cases hc : continueUrl r.json.nextLink with
      | none => rw [hc] at herr; simp at herr
      | some u => rw [hc] at herr; simp [fetchLoop, Except.map] at herr
  · intro h
    rw [hfail r [] usersUrl h]

/-- Witness for C4 (amended): the 204 response satisfies the iff. -/
theorem claim_C4_witness :
    (fetchLoop [resp204] usersUrl).1 =
      .error (.apiError ("Graph API error: " ++ resp204.text)) :=
  (claim_C4_amended.2 resp204).mpr (by decide)

/-- Claim C5: when the token response lacks `access_token` the authenticator
fails with the error whose payload embeds the provider's raw response, and
the run issues zero fetch calls; when `access_token` is present the
authenticator returns exactly that token string. -/
theorem claim_C5 (tokenResult : List (String × String)) (responses : List HttpResponse)
    (fs : String → Option String) (out : String) :
    (dictLookup tokenResult "access_token" = none →
      get_access_token tokenResult =
        .error ("Failed to acquire token: " ++ pyRepr tokenResult) ∧
      (main tokenResult responses fs out).fetchCalls = 0 ∧
      (main tokenResult responses fs out).outcome =
        .error (.authError ("Failed to acquire token: " ++ pyRepr tokenResult))) ∧
    (∀ tok, dictLookup tokenResult "access_token" = some tok →
      get_access_token tokenResult = .ok tok) := by
  constructor
  · intro h
    refine ⟨by simp [get_access_token, h], ?_, ?_⟩ <;>
      simp [main, get_access_token, h]
  · intro tok h
    simp [get_access_token, h]

/-- Witness for C5: a concrete MSAL error response without `access_token`:
authentication fails with the raw response embedded and zero fetch calls. -/
theorem claim_C5_witness :
    get_access_token tokenBad =
      .error ("Failed to acquire token: " ++ pyRepr tokenBad) ∧
    (main tokenBad [pageOne, pageTwo] emptyFs "m365_license_report.csv").fetchCalls = 0 ∧
    (main tokenBad [pageOne, pageTwo] emptyFs "m365_license_report.csv").outcome =
      .error (.authError ("Failed to acquire token: " ++ pyRepr tokenBad)) :=
  (claim_C5 tokenBad [pageOne, pageTwo] emptyFs "m365_license_report.csv").1 rfl

/-- Claim C6: if the fetch fails at any page, the run leaves the file system
untouched (no output file, the accumulated records discarded) and propagates
the fetch error. -/
theorem claim_C6 (tokenResult : List (String × String)) (responses : List HttpResponse)
    (fs : String → Option String) (out : String) (tok : String) (e : FetchError)
    (hauth : get_access_token tokenResult = .ok tok)
    (hfetch : (fetch_users_with_licenses tok responses).1 = .error e) :
    (main tokenResult responses fs out).fs = fs ∧
    (main tokenResult responses fs out).outcome = .error (.fetchError e) := by
  simp [main, hauth, hfetch]

/-- Witness for C6: a 403 on the first page after a successful token: the
file system is unchanged and the run fails with the ApiError. -/
theorem claim_C6_witness :
    (main tokenGood [resp403] emptyFs "m365_license_report.csv").fs = emptyFs ∧
    (main tokenGood [resp403] emptyFs "m365_license_report.csv").outcome =
      .error (.fetchError (.apiError "Graph API error: Authorization_RequestDenied")) :=
  claim_C6 tokenGood [resp403] emptyFs "m365_license_report.csv" "tok123"
    (.apiError "Graph API error: Authorization_RequestDenied") rfl rfl

/-- Claim C9: for a user whose license entries are well-formed, the builder
succeeds, copying `displayName`, `userPrincipalName` and `accountEnabled`
verbatim — an absent field is copied as the null marker `none`, never an
error, so the fetcher never fails because of an absent top-level field. -/
theorem claim_C9 (u : GraphUser) (h : licensesOk u) :
    buildRecord u = .ok (builtRecord u) ∧
    (builtRecord u).userPrincipalName = u.userPrincipalName ∧
    (builtRecord u).displayName = u.displayName ∧
    (builtRecord u).accountEnabled = u.accountEnabled :=
  ⟨buildRecord_ok u h, rfl, rfl, rfl⟩

/-- Witness for C9: the user with every top-level field absent still builds,
with null markers copied through. -/
theorem claim_C9_witness :
    buildRecord userBare = .ok (builtRecord userBare) ∧
    (builtRecord userBare).userPrincipalName = userBare.userPrincipalName ∧
    (builtRecord userBare).displayName = userBare.displayName ∧
    (builtRecord userBare).accountEnabled = userBare.accountEnabled :=
  claim_C9 userBare (by simp [licensesOk, userBare])

/-- Claim C10: the skuId lookup is partial: every user whose license entries
all carry `skuId` builds successfully, while the user with an entry lacking
`skuId` raises the key-lookup error `KeyError("skuId")` — which is not an
ApiError — and it propagates out of the fetch uncaught. -/
theorem claim_C10 :
    (∀ u : GraphUser, licensesOk u → ∃ r, buildRecord u = .ok r) ∧
    buildRecord userBadLic = .error (.keyError "skuId") ∧
    (fetch_users_with_licenses "tok" [pageBadLic]).1 = .error (.keyError "skuId") ∧
    (∀ m, (FetchError.keyError "skuId") ≠ .apiError m) :=
  ⟨fun u h => ⟨builtRecord u, buildRecord_ok u h⟩, rfl, rfl, fun m h => by cases h⟩

/-- Witness for C10: the well-licensed user builds successfully. -/
theorem claim_C10_witness : ∃ r, buildRecord userAlice = .ok r :=
  claim_C10.1 userAlice (by simp [licensesOk, userAlice, licA])

theorem string_mk_append (xs ys : List Char) :
    String.mk (xs ++ ys) = String.mk xs ++ String.mk ys := rfl

/-- The header line the exporter writes, as a string literal. -/
theorem header_line :
    String.mk (renderRow headerRow) =
      "UserPrincipalName,DisplayName,AccountEnabled,AssignedLicenses\r\n" := by decide

/-- Claim C7: the exporter's output is exactly one header line with the four
column names in fixed order, followed by one CSV line per record in input
order, and the write replaces the content at the output path unconditionally
while leaving every other path untouched. -/
theorem claim_C7 (users : List UserRecord) (fs : String → Option String) (path : String) :
    export_to_csv users =
      "UserPrincipalName,DisplayName,AccountEnabled,AssignedLicenses\r\n" ++
        String.mk ((users.map (fun u => renderRow (rowOfRecord u))).flatten) ∧
    writeFile fs path (export_to_csv users) path = some (export_to_csv users) ∧
    (∀ p, p ≠ path → writeFile fs path (export_to_csv users) p = fs p) := by
  refine ⟨?_, by simp [writeFile], fun p hp => by simp [writeFile, hp]⟩
  show String.mk (renderRows (headerRow :: users.map rowOfRecord)) = _
  rw [renderRows, List.map_cons, List.flatten_cons, string_mk_append, header_line,
    List.map_map]
  rfl

theorem map_mk_rowOfRecord (users : List UserRecord) :
    users.map (fun u => (rowOfRecord u).map String.mk) = users.map recordCells := by
  induction users with
  | nil => rfl
  | cons u rest ih =>
    simp only [List.map_cons, ih]
    rw [rowOfRecord, map_mk_data]

/-- Claim C8: re-parsing the exported CSV with the standard reader reproduces
exactly the four column values of the header and of every record, in order —
including values with embedded commas or quotes, which QUOTE_MINIMAL escapes
and the reader unescapes. -/
theorem claim_C8 (users : List UserRecord) :
    parseCsv (export_to_csv users) = headerCells :: users.map recordCells := by
  have hrows : ∀ row ∈ headerRow :: users.map rowOfRecord, row ≠ [] := by
    intro row hr
    rcases List.mem_cons.mp hr with h | h
    · subst h; simp [headerRow, headerCells]
    · obtain ⟨u, _, rfl⟩ := List.mem_map.mp h
      simp [rowOfRecord, recordCells]
  have hlen : (headerRow :: users.map rowOfRecord).length ≤
      (renderRows (headerRow :: users.map rowOfRecord)).length + 1 := by
    have := length_le_renderRows (headerRow :: users.map rowOfRecord)
    omega
  have hdata : (String.mk (renderRows (headerRow :: users.map rowOfRecord))).data =
      renderRows (headerRow :: users.map rowOfRecord) := rfl
  show (parseRowsAux ((export_to_csv users).data.length + 1) (export_to_csv users).data).map
      (fun row => row.map String.mk) = _
  rw [export_to_csv, hdata,
    parseRowsAux_render (headerRow :: users.map rowOfRecord) _ hlen hrows,
    List.map_cons, headerRow, map_mk_data headerCells, List.map_map]
  show _ :: users.map (fun u => (rowOfRecord u).map String.mk) = _
  rw [map_mk_rowOfRecord]

/-- Witness for C7: one record over an empty file system. -/
theorem claim_C7_witness :
    export_to_csv [builtRecord userAlice] =
      "UserPrincipalName,DisplayName,AccountEnabled,AssignedLicenses\r\n" ++
        String.mk (([builtRecord userAlice].map (fun u => renderRow (rowOfRecord u))).flatten) ∧
    writeFile emptyFs "m365_license_report.csv" (export_to_csv [builtRecord userAlice])
        "m365_license_report.csv" = some (export_to_csv [builtRecord userAlice]) ∧
    (∀ p, p ≠ "m365_license_report.csv" →
      writeFile emptyFs "m365_license_report.csv" (export_to_csv [builtRecord userAlice]) p =
        emptyFs p) :=
  claim_C7 [builtRecord userAlice] emptyFs "m365_license_report.csv"

end M365
